import Mathlib

/-!
Verification development for the DnB events calendar generator
(`generate_calendar.py`).  The Python functions `format_dt`,
`generate_ics` and `write_calendar` are embedded as executable Lean
definitions; filesystem effects are modelled by explicit state passing
over a map from paths to file contents, and Python exceptions by an
`Except` result with an error type mirroring the exception classes the
code can raise.
-/

namespace DnbCal

/-- Python exception classes observable from the three core functions.
`valueError` models `ValueError` (the writer's validation failures, and
`datetime.fromisoformat` on an invalid string), `keyError` models a
`KeyError` on a missing dict key, `indexError` an out-of-bounds list
subscript, `attributeError` the `AttributeError` raised by
`None.replace(...)`, `overflowError` a `datetime` range overflow in
`astimezone`, and `runtimeError` the `RuntimeError` the writer wraps
I/O failures in. -/
inductive PyErr where
  | valueError (msg : String)
  | keyError (key : String)
  | indexError
  | attributeError
  | overflowError
  | runtimeError (msg : String)
  deriving DecidableEq

/-- A Python `datetime` value: calendar fields plus an optional UTC
offset in minutes (`none` models a naive datetime, `some o` an aware
one with `tzinfo = timezone(timedelta(minutes = o))`). -/
structure PyDateTime where
  year : Nat
  month : Nat
  day : Nat
  hour : Nat
  minute : Nat
  second : Nat
  usec : Nat
  offset : Option Int
  deriving DecidableEq

instance {ε α : Type} [DecidableEq ε] [DecidableEq α] : DecidableEq (Except ε α) := fun x y =>
  match x, y with
  | .ok a, .ok b => if h : a = b then .isTrue (by rw [h]) else .isFalse (by simp [h])
  | .error a, .error b => if h : a = b then .isTrue (by rw [h]) else .isFalse (by simp [h])
  | .ok _, .error _ => .isFalse (by simp)
  | .error _, .ok _ => .isFalse (by simp)

/-- Numeric value of a decimal digit character. -/
def digitVal (c : Char) : Nat := c.toNat - 48

/-- Read exactly two decimal digits. -/
def parse2 : List Char → Option (Nat × List Char)
  | a :: b :: rest =>
      if a.isDigit && b.isDigit then some (digitVal a * 10 + digitVal b, rest) else none
  | _ => none

/-- Read exactly four decimal digits. -/
def parse4 : List Char → Option (Nat × List Char)
  | a :: b :: c :: d :: rest =>
      if a.isDigit && b.isDigit && c.isDigit && d.isDigit then
        some (((digitVal a * 10 + digitVal b) * 10 + digitVal c) * 10 + digitVal d, rest)
      else none
  | _ => none

/-- Consume one expected character. -/
def expectCh (c : Char) : List Char → Option (List Char)
  | x :: rest => if x = c then some rest else none
  | [] => none

/-- Split off the leading run of decimal digits. -/
def takeDigits : List Char → List Char × List Char
  | [] => ([], [])
  | c :: r =>
      if c.isDigit then
        let p := takeDigits r
        (c :: p.1, p.2)
      else ([], c :: r)

/-- Decimal value of a digit list (most significant first). -/
def digitsToNat : Nat → List Char → Nat
  | acc, [] => acc
  | acc, c :: r => digitsToNat (acc * 10 + digitVal c) r

/-- Microseconds denoted by a fractional-seconds digit run, as
`datetime.fromisoformat` computes them: fewer than six digits are
scaled up, digits beyond the sixth are truncated. -/
def fracToUsec (ds : List Char) : Nat :=
  if ds.length ≤ 6 then digitsToNat 0 ds * 10 ^ (6 - ds.length)
  else digitsToNat 0 (ds.take 6)

/-- Parse the magnitude of a `HH:MM` UTC offset (minutes); the whole
remainder must be consumed and the offset must be a valid
`timezone` offset (strictly less than 24 hours, minutes below 60). -/
def parseOffMag (l : List Char) : Option Int := do
  let (hh, r) ← parse2 l
  let r ← expectCh ':' r
  let (mm, r2) ← parse2 r
  if r2 = [] ∧ mm ≤ 59 ∧ hh * 60 + mm ≤ 1439 then some ((hh : Int) * 60 + mm) else none

/-- Parse the tail after the time fields: end of input gives a naive
datetime, `+HH:MM` / `-HH:MM` an aware one. -/
def parseTail : List Char → Option (Option Int)
  | [] => some none
  | '+' :: r => (parseOffMag r).map some
  | '-' :: r => (parseOffMag r).map (fun m => some (-m))
  | _ => none

/-- Parse the part after the seconds field: an optional fractional run
introduced by a dot, then the offset tail. -/
def parseSecTail (y mo d h mi s : Nat) : List Char → Option PyDateTime
  | c2 :: r4 =>
      if c2 = '.' then
        let p := takeDigits r4
        if p.1 = [] then none
        else do
          let off ← parseTail p.2
          some ⟨y, mo, d, h, mi, s, fracToUsec p.1, off⟩
      else do
        let off ← parseTail (c2 :: r4)
        some ⟨y, mo, d, h, mi, s, 0, off⟩
  | [] => some ⟨y, mo, d, h, mi, s, 0, none⟩

/-- Parse the part after the minutes field: optional `:SS` with its
tail, or directly the offset tail. -/
def parseMinTail (y mo d h mi : Nat) : List Char → Option PyDateTime
  | c :: r2 =>
      if c = ':' then do
        let (s, r3) ← parse2 r2
        parseSecTail y mo d h mi s r3
      else do
        let off ← parseTail (c :: r2)
        some ⟨y, mo, d, h, mi, 0, 0, off⟩
  | [] => some ⟨y, mo, d, h, mi, 0, 0, none⟩

/-- Parse `HH:MM[:SS[.digits]]` plus the optional offset tail. -/
def parseTime (y mo d : Nat) (l : List Char) : Option PyDateTime := do
  let (h, r) ← parse2 l
  let r ← expectCh ':' r
  let (mi, r) ← parse2 r
  parseMinTail y mo d h mi r

/-- Proleptic Gregorian leap year, as Python's `calendar.isleap`. -/
def isLeap (y : Nat) : Bool := y % 4 = 0 && (y % 100 ≠ 0 || y % 400 = 0)

/-- Number of days in a month. -/
def daysInMonth (y m : Nat) : Nat :=
  if m = 2 then (if isLeap y then 29 else 28)
  else if m = 4 ∨ m = 6 ∨ m = 9 ∨ m = 11 then 30
  else 31

/-- The range checks Python's `datetime` constructor performs. -/
def validDT (d : PyDateTime) : Bool :=
  1 ≤ d.year && d.year ≤ 9999 && 1 ≤ d.month && d.month ≤ 12 &&
  1 ≤ d.day && d.day ≤ daysInMonth d.year d.month &&
  d.hour ≤ 23 && d.minute ≤ 59 && d.second ≤ 59 && d.usec ≤ 999999

/-- Model of `datetime.fromisoformat` on the ISO-8601 forms relevant
here: `YYYY-MM-DD`, optionally followed by `T` (or a space) and
`HH:MM[:SS[.digits]]`, optionally followed by a `±HH:MM` offset.
The caller has already substituted `+00:00` for `Z` (see `replaceZ`),
matching the `dt_str.replace("Z", "+00:00")` in the source. -/
def fromisoformat (l : List Char) : Option PyDateTime := do
  let (y, r) ← parse4 l
  let r ← expectCh '-' r
  let (mo, r) ← parse2 r
  let r ← expectCh '-' r
  let (d, r) ← parse2 r
  let dt ← match r with
    | [] => some (⟨y, mo, d, 0, 0, 0, 0, none⟩ : PyDateTime)
    | 'T' :: r2 => parseTime y mo d r2
    | ' ' :: r2 => parseTime y mo d r2
    | _ => none
  if validDT dt then some dt else none

/-- Model of `dt_str.replace("Z", "+00:00")`: every `Z` character is
replaced by the six characters `+00:00`. -/
def replaceZ : List Char → List Char
  | [] => []
  | c :: r =>
      if c = 'Z' then '+' :: '0' :: '0' :: ':' :: '0' :: '0' :: replaceZ r
      else c :: replaceZ r

/-- Days elapsed since 0000-03-01 of the proleptic Gregorian date
`y-m-d` (civil-to-days conversion, months shifted so leap days land at
the end of the counting year). -/
def daysFromCivilNat (y m d : Nat) : Nat :=
  let y2 := if m ≤ 2 then y - 1 else y
  let era := y2 / 400
  let yoe := y2 % 400
  let mp := (m + 9) % 12
  let doy := (153 * mp + 2) / 5 + d - 1
  let doe := yoe * 365 + yoe / 4 - yoe / 100 + doy
  era * 146097 + doe

/-- Inverse of `daysFromCivilNat`: the date `(y, m, d)` that lies `z`
days after 0000-03-01. -/
def civilFromDaysNat (z : Nat) : Nat × Nat × Nat :=
  let era := z / 146097
  let doe := z % 146097
  let yoe := (doe - doe / 1460 + doe / 36524 - doe / 146096) / 365
  let y2 := yoe + era * 400
  let doy := doe - (365 * yoe + yoe / 4 - yoe / 100)
  let mp := (5 * doy + 2) / 153
  let d := doy - (153 * mp + 2) / 5 + 1
  let m := if mp < 10 then mp + 3 else mp - 9
  (if m ≤ 2 then y2 + 1 else y2, m, d)

/-- Day number of 0001-01-01, the smallest date Python can represent. -/
def minDayNum : Nat := 306

/-- Day number of 9999-12-31, the largest date Python can represent. -/
def maxDayNum : Nat := 3652364

/-- Model of `dt.astimezone(timezone.utc)`: a naive datetime is
interpreted in the system's local timezone (offset `localOff`
minutes), an aware one uses its own offset; the instant is then
re-expressed with offset zero.  Results outside Python's year range
1..9999 raise `OverflowError`, modelled as `none`. -/
def toUTC (localOff : Int) (d : PyDateTime) : Option PyDateTime :=
  let off := d.offset.getD localOff
  let tm : Int := (daysFromCivilNat d.year d.month d.day : Int) * 1440
      + (d.hour : Int) * 60 + (d.minute : Int) - off
  if tm < (minDayNum : Int) * 1440 ∨ ((maxDayNum : Int) * 1440 + 1439) < tm then none
  else
    let t := tm.toNat
    let c := civilFromDaysNat (t / 1440)
    some ⟨c.1, c.2.1, c.2.2, t % 1440 / 60, t % 1440 % 60, d.second, d.usec, some 0⟩

/-- The decimal digit character for `n < 10`. -/
def dChar (n : Nat) : Char := Char.ofNat (48 + n)

/-- Two-digit zero-padded decimal rendering. -/
def pad2 (n : Nat) : List Char := [dChar (n / 10), dChar (n % 10)]

/-- Four-digit zero-padded decimal rendering. -/
def pad4 (n : Nat) : List Char :=
  [dChar (n / 1000), dChar (n / 100 % 10), dChar (n / 10 % 10), dChar (n % 10)]

/-- Six-digit zero-padded decimal rendering. -/
def pad6 (n : Nat) : List Char :=
  [dChar (n / 100000), dChar (n / 10000 % 10), dChar (n / 1000 % 10),
   dChar (n / 100 % 10), dChar (n / 10 % 10), dChar (n % 10)]

/-- Model of `dt.strftime("%Y%m%dT%H%M%SZ")`. -/
def strftimeBasic (d : PyDateTime) : String :=
  String.mk (pad4 d.year ++ pad2 d.month ++ pad2 d.day ++ ['T'] ++
    pad2 d.hour ++ pad2 d.minute ++ pad2 d.second ++ ['Z'])

/-- Embedding of `format_dt` (source lines 45-48): substitute `+00:00`
for `Z`, parse with `fromisoformat`, convert to UTC (naive values are
interpreted at the system offset `localOff`), format in basic ICS UTC
form. -/
def format_dt (localOff : Int) (s : String) : Except PyErr String :=
  match fromisoformat (replaceZ s.data) with
  | none => .error (.valueError ("Invalid isoformat string: " ++ s))
  | some dt =>
      match toUTC localOff dt with
      | none => .error .overflowError
      | some u => .ok (strftimeBasic u)

/-- The call `format_dt(date.get("end"))` at source line 66: when the
`end` key is absent, `date.get("end")` is `None` and the body's
`dt_str.replace(...)` raises `AttributeError` before anything else
runs. -/
def format_dt_opt (localOff : Int) : Option String → Except PyErr String
  | none => .error .attributeError
  | some s => format_dt localOff s

/-- The fields of one Notion date property value: `date["start"]`
(`none` models the key being absent) and `date.get("end")` (`none`
models an absent or null end). -/
structure NotionDate where
  start : Option String
  endv : Option String
  deriving DecidableEq

/-- The parts of one remote record the code reads:
`props["Event Name"]["title"]` as the list of its runs' `plain_text`
strings (`none` models the `Event Name` key being absent),
`props["ID"]["unique_id"]["number"]` and `props["Date"]["date"]`
likewise with `none` for an absent key. -/
structure NotionRecord where
  eventName : Option (List String)
  uid : Option Int
  date : Option NotionDate
  deriving DecidableEq

/-- The per-record body of the loop in `generate_ics` (source lines
58-79), with field accesses in source order: title, uid, date, start,
end, stamp.  A missing dict key raises `KeyError`, subscripting an
empty title list raises `IndexError`.  `nowIso` stands for the string
`datetime.utcnow().isoformat()` (a naive timestamp). -/
def transformEvent (localOff : Int) (nowIso : String) (r : NotionRecord) :
    Except PyErr (List String) :=
  match r.eventName with
  | none => .error (.keyError "Event Name")
  | some runs =>
    match runs with
    | [] => .error .indexError
    | title :: _ =>
      match r.uid with
      | none => .error (.keyError "ID")
      | some uid =>
        match r.date with
        | none => .error (.keyError "Date")
        | some date =>
          match date.start with
          | none => .error (.keyError "start")
          | some startStr =>
            match format_dt localOff startStr with
            | .error e => .error e
            | .ok startF =>
              match format_dt_opt localOff date.endv with
              | .error e => .error e
              | .ok endF =>
                match format_dt localOff nowIso with
                | .error e => .error e
                | .ok stamp =>
                  .ok (["BEGIN:VEVENT", "UID:" ++ toString uid,
                      "DTSTAMP:" ++ stamp, "DTSTART:" ++ startF]
                    ++ (if endF = "" then [] else ["DTEND:" ++ endF])
                    ++ ["SUMMARY:" ++ title, "END:VEVENT"])

/-- The fixed three-line header of `generate_ics`. -/
def headerLines : List String :=
  ["BEGIN:VCALENDAR", "VERSION:2.0", "PRODID:-//DnB Events//Subscribed Calendar//EN"]

/-- The `lines` list `generate_ics` builds: header, the event blocks in
input order (the loop aborts at the first failing record, as `mapM`
does), footer. -/
def generate_ics_lines (localOff : Int) (nowIso : String) (events : List NotionRecord) :
    Except PyErr (List String) := do
  let blocks ← events.mapM (transformEvent localOff nowIso)
  Except.ok (headerLines ++ blocks.flatten ++ ["END:VCALENDAR"])

/-- Model of `"\r\n".join(lines)`. -/
def joinCRLF : List String → String
  | [] => ""
  | [s] => s
  | s :: rest => s ++ "\r\n" ++ joinCRLF rest

/-- Embedding of `generate_ics` (source lines 51-82). -/
def generate_ics (localOff : Int) (nowIso : String) (events : List NotionRecord) :
    Except PyErr String :=
  (generate_ics_lines localOff nowIso events).map joinCRLF

/-- Whether the first list is an initial segment of the second. -/
def isPre : List Char → List Char → Bool
  | [], _ => true
  | _ :: _, [] => false
  | a :: as, b :: bs => a == b && isPre as bs

/-- Whether `pat` occurs as a contiguous substring, modelling Python's
`pat in s` on strings. -/
def occursIn (pat : List Char) : List Char → Bool
  | [] => isPre pat []
  | c :: r => isPre pat (c :: r) || occursIn pat r

/-- String-level wrapper for `occursIn`. -/
def containsStr (s pat : String) : Bool := occursIn pat.data s.data

/-- Number of positions at which `pat` occurs as a substring. -/
def countOccs (pat : List Char) : List Char → Nat
  | [] => if isPre pat [] then 1 else 0
  | c :: r => (if isPre pat (c :: r) then 1 else 0) + countOccs pat r

/-- Whether `t` is a suffix of `s`, modelling `s.endswith(t)`. -/
def strEndsWith (s t : String) : Bool := isPre t.data.reverse s.data.reverse

/-- The final path component, modelling `path.name`. -/
def baseName (p : String) : String := (p.splitOn "/").getLastD p

/-- A filesystem snapshot: each path maps to its contents, `none` for
an absent file. -/
def updateFS (fs : String → Option String) (k : String) (v : Option String) :
    String → Option String :=
  fun x => if x = k then v else fs x

/-- Embedding of `write_calendar` (source lines 85-107) over an
explicit filesystem state.  `tmpWriteOk` injects success or failure of
`tmp_path.write_text` (on failure the temporary path is left holding
`tmpResidue`, an arbitrary residue of the interrupted write, and only
that path changes); `replaceOk` injects success or failure of
`tmp_path.replace(path)`, which is atomic: on failure nothing moves.
`write_text` is opened with `newline="\n"`, so the text's bytes are
persisted untranslated.  The temporary path
`path.with_suffix(path.suffix + ".tmp")` appends `.tmp` to the name. -/
def write_calendar (fs : String → Option String) (path : String) (ics_text : String)
    (tmpWriteOk : Bool) (tmpResidue : Option String) (replaceOk : Bool) :
    (String → Option String) × Except PyErr Unit :=
  if ics_text = "" then
    (fs, .error (.valueError (baseName path ++ ": empty calendar output location")))
  else if !(containsStr ics_text "BEGIN:VCALENDAR") then
    (fs, .error (.valueError (baseName path ++ ": missing BEGIN:VCALENDAR")))
  else if !(containsStr ics_text "END:VCALENDAR") then
    (fs, .error (.valueError (baseName path ++ ": missing END:VCALENDAR")))
  else
    let text := if strEndsWith ics_text "\n" then ics_text else ics_text ++ "\n"
    let tmp := path ++ ".tmp"
    if tmpWriteOk then
      let fs1 := updateFS fs tmp (some text)
      if replaceOk then
        (updateFS (updateFS fs1 tmp none) path (some text), .ok ())
      else
        (fs1, .error (.runtimeError ("Failed writing " ++ baseName path)))
    else
      (updateFS fs tmp tmpResidue, .error (.runtimeError ("Failed writing " ++ baseName path)))

/-- The empty filesystem: no path holds a file. -/
def emptyFS : String → Option String := fun _ => none

/-- The string payload carried by an exception value (the dict key for
`KeyError`, the message otherwise); used to state what an error does or
does not identify. -/
def errPayload : PyErr → String
  | .valueError m => m
  | .keyError k => k
  | .indexError => ""
  | .attributeError => ""
  | .overflowError => ""
  | .runtimeError m => m

/-- Recogniser for the basic ICS UTC timestamp shape
`YYYYMMDDTHHMMSSZ`: sixteen characters, eight digits, a literal `T`,
six digits, a literal `Z`. -/
def icsShape (s : String) : Bool :=
  s.data.length = 16 && (s.data.take 8).all Char.isDigit &&
  (s.data.drop 8).headD ' ' = 'T' &&
  ((s.data.drop 9).take 6).all Char.isDigit &&
  (s.data.drop 15).headD ' ' = 'Z'

/-- The fractional-seconds characters of the canonical rendering:
empty for zero microseconds, otherwise a dot and six digits. -/
def fracChars (u : Nat) : List Char := if u = 0 then [] else '.' :: pad6 u

/-- The UTC-designator characters of the canonical rendering: nothing
for a naive value, a literal `Z` for offset zero, a signed `HH:MM`
offset otherwise. -/
def offCharsRaw : Option Int → List Char
  | none => []
  | some o =>
      if o = 0 then ['Z']
      else (if o < 0 then '-' else '+') ::
        (pad2 (o.natAbs / 60) ++ [':'] ++ pad2 (o.natAbs % 60))

/-- The UTC-designator characters after the `Z` substitution: a zero
offset appears as `+00:00`. -/
def offChars : Option Int → List Char
  | none => []
  | some o =>
      (if o < 0 then '-' else '+') ::
        (pad2 (o.natAbs / 60) ++ [':'] ++ pad2 (o.natAbs % 60))

/-- The date-and-time characters `YYYY-MM-DDTHH:MM:SS` of the
canonical rendering. -/
def dtChars (y mo d h mi s : Nat) : List Char :=
  pad4 y ++ ['-'] ++ pad2 mo ++ ['-'] ++ pad2 d ++ ['T'] ++
    pad2 h ++ [':'] ++ pad2 mi ++ [':'] ++ pad2 s

/-- Canonical ISO-8601 rendering of datetime fields, quantified over in
the timestamp-formatter claim: `YYYY-MM-DDTHH:MM:SS`, a fractional
part `.ffffff` when `u` is nonzero, and either no designator (naive), a
literal `Z` (UTC), or a `±HH:MM` offset. -/
def isoOfFields (y mo d h mi s u : Nat) (off : Option Int) : String :=
  String.mk (dtChars y mo d h mi s ++ fracChars u ++ offCharsRaw off)

/-! ### Generic helper lemmas -/

lemma strDataAppend (p q : String) : (p ++ q).data = p.data ++ q.data := by
  cases p; cases q; rfl

lemma strNeTmp (p : String) : p ≠ p ++ ".tmp" := by
  intro h
  have h2 := congrArg (fun s => s.data.length) h
  simp only [strDataAppend, List.length_append] at h2
  simp at h2

lemma updateFS_ne {fs : String → Option String} {k v x} (h : x ≠ k) :
    updateFS fs k v x = fs x := by
  simp [updateFS, h]

lemma exceptErrorBind {α β : Type} (e : PyErr) (f : α → Except PyErr β) :
    (Except.error e >>= f) = (.error e : Except PyErr β) := rfl

lemma exceptOkBind {α β : Type} (a : α) (f : α → Except PyErr β) :
    (Except.ok a >>= f : Except PyErr β) = f a := rfl

lemma strHeadNe {p q : String} (s : String) {cp : Char} {tp : List Char} {cq : Char}
    {tq : List Char} (hp : p.data = cp :: tp) (hq : q.data = cq :: tq) (h : cp ≠ cq) :
    p ++ s ≠ q := by
  intro he
  have h2 : (p ++ s).data = q.data := congrArg String.data he
  rw [strDataAppend, hp, hq] at h2
  simp only [List.cons_append] at h2
  injection h2 with h3 _
  exact h h3

lemma prefixedNeMarkers {pre : String} {c : Char} {t : List Char} (hp : pre.data = c :: t)
    (h1 : c ≠ 'B') (h2 : c ≠ 'E') (s : String) :
    pre ++ s ≠ "BEGIN:VCALENDAR" ∧ pre ++ s ≠ "END:VCALENDAR" :=
  ⟨strHeadNe s hp rfl h1, strHeadNe s hp rfl h2⟩

lemma isPre_refl_append (l r : List Char) : isPre l (l ++ r) = true := by
  induction l with
  | nil => rfl
  | cons a as ih => simp [isPre, ih]

lemma occursIn_pre (pat t : List Char) : occursIn pat (pat ++ t) = true := by
  cases pat with
  | nil =>
      induction t with
      | nil => rfl
      | cons c r ih => simp [occursIn, isPre] at ih ⊢
  | cons p ps => simp [occursIn, isPre, isPre_refl_append]

lemma occursIn_suf (pat t : List Char) : occursIn pat (t ++ pat) = true := by
  induction t with
  | nil =>
      have := occursIn_pre pat []
      rwa [List.append_nil] at this
  | cons c r ih => simp [occursIn, ih]

/-- The result of a successful `format_dt` call is never the empty
string (it always has sixteen characters), so the Python truthiness
test `if end:` is true for every formatted end value. -/
lemma format_dt_ok_ne_empty {lo : Int} {s out : String} (h : format_dt lo s = .ok out) :
    out ≠ "" := by
  unfold format_dt at h
  repeat' split at h
  any_goals exact Except.noConfusion h
  injection h with h
  subst h
  intro he
  have h2 := congrArg (fun x => x.data.length) he
  simp [strftimeBasic, pad4, pad2] at h2

/-- Shape of every successfully transformed event block: begin-marker,
identifier line, stamp line, start line, optional end line, title
line, end-marker, in that order. -/
lemma transformEvent_ok_shape {lo : Int} {now : String} {r : NotionRecord}
    {b : List String} (h : transformEvent lo now r = .ok b) :
    ∃ u st sf t eopt,
      b = ["BEGIN:VEVENT", "UID:" ++ u, "DTSTAMP:" ++ st, "DTSTART:" ++ sf]
          ++ eopt ++ ["SUMMARY:" ++ t, "END:VEVENT"] ∧
      (eopt = [] ∨ ∃ e, eopt = ["DTEND:" ++ e]) := by
  unfold transformEvent at h
  repeat' split at h
  any_goals exact Except.noConfusion h
  all_goals injection h with h
  all_goals subst h
  · exact ⟨_, _, _, _, [], rfl, Or.inl rfl⟩
  · exact ⟨_, _, _, _, _, rfl, Or.inr ⟨_, rfl⟩⟩

/-- No line of a transformed event block equals either document
marker. -/
lemma block_lines_ne_markers {lo : Int} {now : String} {r : NotionRecord}
    {b : List String} (h : transformEvent lo now r = .ok b) :
    ∀ x ∈ b, x ≠ "BEGIN:VCALENDAR" ∧ x ≠ "END:VCALENDAR" := by
  obtain ⟨u, st, sf, t, eopt, hb, hopt⟩ := transformEvent_ok_shape h
  rcases hopt with he | ⟨e, he⟩
  · subst he
    subst hb
    intro x hx
    simp only [List.nil_append, List.cons_append, List.mem_cons,
      List.not_mem_nil, or_false] at hx
    rcases hx with h1 | h1 | h1 | h1 | h1 | h1
    · subst h1; exact ⟨by decide, by decide⟩
    · subst h1; exact prefixedNeMarkers rfl (by decide) (by decide) u
    · subst h1; exact prefixedNeMarkers rfl (by decide) (by decide) st
    · subst h1; exact prefixedNeMarkers rfl (by decide) (by decide) sf
    · subst h1; exact prefixedNeMarkers rfl (by decide) (by decide) t
    · subst h1; exact ⟨by decide, by decide⟩
  · subst he
    subst hb
    intro x hx
    simp only [List.nil_append, List.cons_append, List.mem_cons,
      List.not_mem_nil, or_false] at hx
    rcases hx with h1 | h1 | h1 | h1 | h1 | h1 | h1
    · subst h1; exact ⟨by decide, by decide⟩
    · subst h1; exact prefixedNeMarkers rfl (by decide) (by decide) u
    · subst h1; exact prefixedNeMarkers rfl (by decide) (by decide) st
    · subst h1; exact prefixedNeMarkers rfl (by decide) (by decide) sf
    · subst h1; exact prefixedNeMarkers rfl (by decide) (by decide) e
    · subst h1; exact prefixedNeMarkers rfl (by decide) (by decide) t
    · subst h1; exact ⟨by decide, by decide⟩

/-- Every element of a successful `mapM` result comes from a
successfully transformed input element. -/
lemma mapM_ok_mem {α β : Type} {f : α → Except PyErr β} :
    ∀ {l : List α} {bs : List β}, l.mapM f = .ok bs → ∀ b ∈ bs, ∃ a ∈ l, f a = .ok b := by
  intro l
  induction l with
  | nil =>
      intro bs h b hb
      rw [List.mapM_nil] at h
      injection h with h
      subst h
      simp at hb
  | cons a l ih =>
      intro bs h b hb
      rw [List.mapM_cons] at h
      cases hfa : f a with
      | error e => rw [hfa, exceptErrorBind] at h; exact absurd h (by simp)
      | ok b0 =>
          rw [hfa, exceptOkBind] at h
          cases hml : l.mapM f with
          | error e =>
              rw [hml, exceptErrorBind] at h
              exact absurd h (by simp)
          | ok bs0 =>
              rw [hml, exceptOkBind] at h
              injection h with h
              subst h
              rcases List.mem_cons.mp hb with hb | hb
              · exact ⟨a, List.mem_cons_self a l, hb ▸ hfa⟩
              · obtain ⟨a2, ha2, hfa2⟩ := ih hml b hb
                exact ⟨a2, List.mem_cons_of_mem a ha2, hfa2⟩

/-- A failing element fails the whole `mapM` once everything before it
succeeds, regardless of what follows. -/
lemma mapM_append_error {α β : Type} {f : α → Except PyErr β} {l1 l2 : List α}
    {bs : List β} {e : PyErr} (h1 : l1.mapM f = .ok bs) (h2 : l2.mapM f = .error e) :
    (l1 ++ l2).mapM f = .error e := by
  rw [List.mapM_append, h1, exceptOkBind, h2, exceptErrorBind]

/-- Structure of every successful serializer output: the fixed header,
the flattened event blocks in input order, the footer. -/
lemma generate_lines_eq {lo : Int} {now : String} {evs : List NotionRecord}
    {lines : List String} (h : generate_ics_lines lo now evs = .ok lines) :
    ∃ blocks, evs.mapM (transformEvent lo now) = .ok blocks ∧
      lines = headerLines ++ blocks.flatten ++ ["END:VCALENDAR"] := by
  unfold generate_ics_lines at h
  cases hm : evs.mapM (transformEvent lo now) with
  | error e => rw [hm, exceptErrorBind] at h; exact absurd h (by simp)
  | ok blocks =>
      rw [hm, exceptOkBind] at h
      injection h with h
      exact ⟨blocks, rfl, h.symm⟩

/-! ### Claim theorems: the serializer on degenerate inputs -/

/-- C9: serializing the empty list of events produces exactly the fixed
three-line header followed by the footer line, with zero event blocks
and both markers present; this holds for any system offset and any
stamp string since no record is transformed. -/
theorem serialize_empty_header_footer (localOff : Int) (nowIso : String) :
    generate_ics_lines localOff nowIso [] =
      .ok ["BEGIN:VCALENDAR", "VERSION:2.0",
        "PRODID:-//DnB Events//Subscribed Calendar//EN", "END:VCALENDAR"] ∧
    generate_ics localOff nowIso [] =
      .ok "BEGIN:VCALENDAR\r\nVERSION:2.0\r\nPRODID:-//DnB Events//Subscribed Calendar//EN\r\nEND:VCALENDAR" :=
  ⟨rfl, rfl⟩

/-- C1: a record whose date range has a start but no end value crashes
the transform: `format_dt(date.get("end"))` calls `None.replace` and
raises `AttributeError` instead of omitting the DTEND line, so the
claimed behaviour (success with the end line omitted) does not occur. -/
theorem missing_end_raises_attribute_error :
    generate_ics 0 "2025-11-01T12:00:00.123456"
      [{ eventName := some ["Jungle Night"], uid := some 42,
         date := some { start := some "2025-11-01T22:00:00.000Z", endv := none } }] =
      .error .attributeError := by decide

/-- C10: a record whose title property is present but whose rich-text
run list is empty makes the serializer fail with the out-of-bounds
subscript `["title"][0]`, aborting the run regardless of the other
fields and of any later records; it is not treated as an empty title. -/
theorem empty_title_runs_abort (localOff : Int) (nowIso : String) (u : Option Int)
    (d : Option NotionDate) (rest : List NotionRecord) :
    generate_ics_lines localOff nowIso
      ({ eventName := some [], uid := u, date := d } :: rest) = .error .indexError := by
  have ht : transformEvent localOff nowIso { eventName := some [], uid := u, date := d } =
      .error .indexError := rfl
  unfold generate_ics_lines
  rw [List.mapM_cons, ht]
  rfl

/-! ### Claim theorems: the atomic file writer -/

/-- C3: a document that is empty or lacks either structural marker is
rejected by the writer with the validation `ValueError` before any
filesystem mutation: the whole filesystem state, in particular the
target path and its directory, is returned unchanged. -/
theorem writer_validation_no_mutation (fs : String → Option String)
    (path text : String) (tw : Bool) (res : Option String) (ro : Bool)
    (h : text = "" ∨ containsStr text "BEGIN:VCALENDAR" = false ∨
      containsStr text "END:VCALENDAR" = false) :
    (write_calendar fs path text tw res ro).1 = fs ∧
    ∃ msg, (write_calendar fs path text tw res ro).2 = .error (.valueError msg) := by
  unfold write_calendar
  by_cases h1 : text = ""
  · simp [h1]
  · by_cases h2 : containsStr text "BEGIN:VCALENDAR"
    · by_cases h3 : containsStr text "END:VCALENDAR"
      · rcases h with h | h | h
        · exact absurd h h1
        · rw [h2] at h; exact absurd h (by simp)
        · rw [h3] at h; exact absurd h (by simp)
      · simp only [Bool.not_eq_true] at h3
        simp [h1, h2, h3]
    · simp only [Bool.not_eq_true] at h2
      simp [h1, h2]

/-- C3 witness: a concrete document missing both markers is rejected
and the (empty) filesystem is untouched. -/
theorem writer_validation_no_mutation_witness :
    containsStr "oops" "BEGIN:VCALENDAR" = false ∧
    ((write_calendar emptyFS "calendars/ams-dnb.ics" "oops" true none true).1 = emptyFS ∧
      ∃ msg, (write_calendar emptyFS "calendars/ams-dnb.ics" "oops" true none true).2 =
        .error (.valueError msg)) :=
  ⟨by decide, writer_validation_no_mutation emptyFS "calendars/ams-dnb.ics" "oops"
    true none true (Or.inr (Or.inl (by decide)))⟩

/-- C2: when the document passes validation but the temporary-file
write or the rename step fails, the target path's prior contents (or
absence) are unchanged — only the temporary sibling path can differ —
and the failure surfaces as the wrapped `RuntimeError` naming the
target file. -/
theorem writer_failure_preserves_target (fs : String → Option String)
    (path text : String) (tw : Bool) (res : Option String) (ro : Bool)
    (hne : text ≠ "")
    (hb : containsStr text "BEGIN:VCALENDAR" = true)
    (he : containsStr text "END:VCALENDAR" = true)
    (hfail : tw = false ∨ ro = false) :
    (write_calendar fs path text tw res ro).1 path = fs path ∧
    (write_calendar fs path text tw res ro).2 =
      .error (.runtimeError ("Failed writing " ++ baseName path)) := by
  unfold write_calendar
  rcases hfail with h | h
  · subst h
    simp only [hne, hb, he, if_false, Bool.not_true, if_neg, ite_false]
    simp [hne, hb, he, updateFS_ne (strNeTmp path)]
  · subst h
    cases tw
    · simp [hne, hb, he, updateFS_ne (strNeTmp path)]
    · simp [hne, hb, he, updateFS_ne (strNeTmp path)]

/-- C2 witness: with a concrete pre-existing target file and a failing
temporary write, the target's contents survive and the error is the
wrapped `RuntimeError`. -/
theorem writer_failure_preserves_target_witness :
    ("BEGIN:VCALENDAR\r\nEND:VCALENDAR" ≠ "" ∧
      containsStr "BEGIN:VCALENDAR\r\nEND:VCALENDAR" "BEGIN:VCALENDAR" = true) ∧
    ((write_calendar (updateFS emptyFS "cal.ics" (some "old")) "cal.ics"
        "BEGIN:VCALENDAR\r\nEND:VCALENDAR" false (some "garbage") true).1 "cal.ics" =
      updateFS emptyFS "cal.ics" (some "old") "cal.ics" ∧
    (write_calendar (updateFS emptyFS "cal.ics" (some "old")) "cal.ics"
        "BEGIN:VCALENDAR\r\nEND:VCALENDAR" false (some "garbage") true).2 =
      .error (.runtimeError ("Failed writing " ++ baseName "cal.ics"))) :=
  ⟨⟨by decide, by decide⟩,
    writer_failure_preserves_target (updateFS emptyFS "cal.ics" (some "old")) "cal.ics"
      "BEGIN:VCALENDAR\r\nEND:VCALENDAR" false (some "garbage") true
      (by decide) (by decide) (by decide) (Or.inl rfl)⟩

/-! ### Joined-document helper lemmas -/

lemma lastOfAppendSingleton : ∀ (l : List String) (x : String),
    (l ++ [x]).getLast? = some x := by
  intro l x
  induction l with
  | nil => rfl
  | cons a l ih =>
      rw [List.cons_append]
      cases hl2 : l ++ [x] with
      | nil => exact absurd hl2 (by simp)
      | cons b r =>
          rw [List.getLast?_cons_cons, ← hl2, ih]

lemma joinCRLF_cons_cons (a b : String) (r : List String) :
    joinCRLF (a :: b :: r) = a ++ "\r\n" ++ joinCRLF (b :: r) := rfl

lemma joinCRLF_head (x : String) (rest : List String) :
    ∃ t, (joinCRLF (x :: rest)).data = x.data ++ t := by
  cases rest with
  | nil => exact ⟨[], by simp [joinCRLF]⟩
  | cons y r =>
      refine ⟨'\r' :: '\n' :: (joinCRLF (y :: r)).data, ?_⟩
      rw [joinCRLF_cons_cons, strDataAppend, strDataAppend]
      simp

lemma joinCRLF_last : ∀ (l : List String) (x : String),
    ∃ t, (joinCRLF (l ++ [x])).data = t ++ x.data := by
  intro l
  induction l with
  | nil => intro x; exact ⟨[], by simp [joinCRLF]⟩
  | cons a l ih =>
      intro x
      obtain ⟨t, ht⟩ := ih x
      refine ⟨a.data ++ '\r' :: '\n' :: t, ?_⟩
      have hstep : joinCRLF ((a :: l) ++ [x]) = a ++ "\r\n" ++ joinCRLF (l ++ [x]) := by
        cases l with
        | nil => rfl
        | cons b l2 => rfl
      rw [hstep, strDataAppend, strDataAppend, ht]
      have hd : ("\r\n" : String).data = ['\r', '\n'] := rfl
      rw [hd]
      simp

lemma data_ne_empty_left {s : String} {a t : List Char} (h : s.data = a ++ t)
    (ha : a ≠ []) : s ≠ "" := by
  intro he
  subst he
  rcases a with _ | ⟨c, a2⟩
  · exact ha rfl
  · exact List.noConfusion h

/-- Every successful serializer output, viewed as a character string,
starts with the opening marker and ends with the closing marker. -/
lemma generate_doc_ends {lo : Int} {now : String} {evs : List NotionRecord}
    {lines : List String} (h : generate_ics_lines lo now evs = .ok lines) :
    (∃ t, (joinCRLF lines).data = "BEGIN:VCALENDAR".data ++ t) ∧
    (∃ t, (joinCRLF lines).data = t ++ "END:VCALENDAR".data) := by
  obtain ⟨blocks, hm, hl⟩ := generate_lines_eq h
  constructor
  · have h2 : lines = "BEGIN:VCALENDAR" ::
        ("VERSION:2.0" :: "PRODID:-//DnB Events//Subscribed Calendar//EN" ::
          (blocks.flatten ++ ["END:VCALENDAR"])) := by
      rw [hl]; rfl
    rw [h2]
    exact joinCRLF_head _ _
  · have h2 : lines = (headerLines ++ blocks.flatten) ++ ["END:VCALENDAR"] := by
      rw [hl, List.append_assoc]
    rw [h2]
    exact joinCRLF_last _ _

/-- A successful serializer output passes the writer's validation and
does not end in a newline (its last characters are those of the
closing marker). -/
lemma generate_doc_writer_facts {lo : Int} {now : String} {evs : List NotionRecord}
    {lines : List String} (h : generate_ics_lines lo now evs = .ok lines) :
    joinCRLF lines ≠ "" ∧
    containsStr (joinCRLF lines) "BEGIN:VCALENDAR" = true ∧
    containsStr (joinCRLF lines) "END:VCALENDAR" = true ∧
    strEndsWith (joinCRLF lines) "\n" = false := by
  obtain ⟨⟨t1, ht1⟩, ⟨t2, ht2⟩⟩ := generate_doc_ends h
  refine ⟨data_ne_empty_left ht1 (by decide), ?_, ?_, ?_⟩
  · unfold containsStr
    rw [ht1]
    exact occursIn_pre _ _
  · unfold containsStr
    rw [ht2]
    exact occursIn_suf _ _
  · unfold strEndsWith
    rw [ht2]
    have hrev : (t2 ++ "END:VCALENDAR".data).reverse =
        'R' :: ("ADNELACV:DNE".data ++ t2.reverse) := by
      rw [List.reverse_append]
      rfl
    rw [hrev]
    have hn : ("\n" : String).data.reverse = ['\n'] := rfl
    rw [hn]
    simp [isPre]

/-- Success path of the writer: validation passes, the temporary write
and the atomic replace both succeed, and the target path ends up
holding the text, with a bare LF appended when the text does not
already end in a newline. -/
lemma write_ok_persist (fs : String → Option String) (path text : String)
    (h1 : text ≠ "") (h2 : containsStr text "BEGIN:VCALENDAR" = true)
    (h3 : containsStr text "END:VCALENDAR" = true) :
    (write_calendar fs path text true none true).1 path =
      some (if strEndsWith text "\n" then text else text ++ "\n") ∧
    (write_calendar fs path text true none true).2 = .ok () := by
  unfold write_calendar
  simp [h1, h2, h3, updateFS]

/-! ### Claim theorems: line terminators of the persisted file -/

/-- C6 counterexample: for the serialized empty calendar, the persisted
bytes end with a bare LF and not with a CRLF pair, so the
carriage-return + line-feed pair is not the terminator of every line of
the persisted file. -/
theorem persisted_last_line_not_crlf :
    generate_ics 0 "2025-01-01T00:00:00" [] =
      .ok "BEGIN:VCALENDAR\r\nVERSION:2.0\r\nPRODID:-//DnB Events//Subscribed Calendar//EN\r\nEND:VCALENDAR" ∧
    (write_calendar emptyFS "calendars/ams-dnb.ics"
        "BEGIN:VCALENDAR\r\nVERSION:2.0\r\nPRODID:-//DnB Events//Subscribed Calendar//EN\r\nEND:VCALENDAR"
        true none true).1 "calendars/ams-dnb.ics" =
      some "BEGIN:VCALENDAR\r\nVERSION:2.0\r\nPRODID:-//DnB Events//Subscribed Calendar//EN\r\nEND:VCALENDAR\n" ∧
    strEndsWith
      "BEGIN:VCALENDAR\r\nVERSION:2.0\r\nPRODID:-//DnB Events//Subscribed Calendar//EN\r\nEND:VCALENDAR\n"
      "\n" = true ∧
    strEndsWith
      "BEGIN:VCALENDAR\r\nVERSION:2.0\r\nPRODID:-//DnB Events//Subscribed Calendar//EN\r\nEND:VCALENDAR\n"
      "\r\n" = false := by decide

/-- C6 amended: the writer persists the validated text byte-for-byte,
appending a single bare LF when the text lacks a trailing newline; in
particular a serialized document (whose interior line separators are
all CRLF but which ends, without a newline, on the closing marker) is
persisted as the CRLF-joined lines followed by one bare LF, so every
line terminator except the final one is CRLF. -/
theorem persisted_bytes_crlf_joined :
    (∀ (fs : String → Option String) (path text : String),
      text ≠ "" → containsStr text "BEGIN:VCALENDAR" = true →
      containsStr text "END:VCALENDAR" = true →
      (write_calendar fs path text true none true).1 path =
        some (if strEndsWith text "\n" then text else text ++ "\n")) ∧
    (∀ (lo : Int) (now : String) (evs : List NotionRecord) (lines : List String)
      (fs : String → Option String) (path : String),
      generate_ics_lines lo now evs = .ok lines →
      strEndsWith (joinCRLF lines) "\n" = false ∧
      (write_calendar fs path (joinCRLF lines) true none true).1 path =
        some (joinCRLF lines ++ "\n")) := by
  constructor
  · intro fs path text h1 h2 h3
    exact (write_ok_persist fs path text h1 h2 h3).1
  · intro lo now evs lines fs path h
    obtain ⟨hne, hb, he, hnl⟩ := generate_doc_writer_facts h
    refine ⟨hnl, ?_⟩
    have hp := (write_ok_persist fs path (joinCRLF lines) hne hb he).1
    rw [hnl] at hp
    simpa using hp

/-- C6 amended witness: concrete instantiation on the empty calendar
document. -/
theorem persisted_bytes_crlf_joined_witness :
    generate_ics_lines 0 "2025-01-01T00:00:00" [] =
      .ok ["BEGIN:VCALENDAR", "VERSION:2.0",
        "PRODID:-//DnB Events//Subscribed Calendar//EN", "END:VCALENDAR"] ∧
    (strEndsWith (joinCRLF ["BEGIN:VCALENDAR", "VERSION:2.0",
        "PRODID:-//DnB Events//Subscribed Calendar//EN", "END:VCALENDAR"]) "\n" = false ∧
      (write_calendar emptyFS "calendars/ams-dnb.ics"
          (joinCRLF ["BEGIN:VCALENDAR", "VERSION:2.0",
            "PRODID:-//DnB Events//Subscribed Calendar//EN", "END:VCALENDAR"])
          true none true).1 "calendars/ams-dnb.ics" =
        some (joinCRLF ["BEGIN:VCALENDAR", "VERSION:2.0",
          "PRODID:-//DnB Events//Subscribed Calendar//EN", "END:VCALENDAR"] ++ "\n")) :=
  ⟨by decide,
    persisted_bytes_crlf_joined.2 0 "2025-01-01T00:00:00" []
      ["BEGIN:VCALENDAR", "VERSION:2.0",
        "PRODID:-//DnB Events//Subscribed Calendar//EN", "END:VCALENDAR"]
      emptyFS "calendars/ams-dnb.ics" (by decide)⟩

/-! ### Claim theorems: marker uniqueness -/

set_option maxRecDepth 8000 in
/-- C7 counterexample: a title containing the closing marker makes the
document text contain two substring occurrences of `END:VCALENDAR`
(titles are not escaped), so the document text does not always contain
exactly one occurrence of each marker. -/
theorem marker_occurs_twice_with_evil_title :
    generate_ics 0 "2025-01-01T00:00:00"
      [⟨some ["END:VCALENDAR"], some 1,
        some ⟨some "2025-11-01T22:00:00.000Z", some "2025-11-02T02:00:00.000Z"⟩⟩] =
      .ok "BEGIN:VCALENDAR\r\nVERSION:2.0\r\nPRODID:-//DnB Events//Subscribed Calendar//EN\r\nBEGIN:VEVENT\r\nUID:1\r\nDTSTAMP:20250101T000000Z\r\nDTSTART:20251101T220000Z\r\nDTEND:20251102T020000Z\r\nSUMMARY:END:VCALENDAR\r\nEND:VEVENT\r\nEND:VCALENDAR" ∧
    countOccs ("END:VCALENDAR".data)
      ("BEGIN:VCALENDAR\r\nVERSION:2.0\r\nPRODID:-//DnB Events//Subscribed Calendar//EN\r\nBEGIN:VEVENT\r\nUID:1\r\nDTSTAMP:20250101T000000Z\r\nDTSTART:20251101T220000Z\r\nDTEND:20251102T020000Z\r\nSUMMARY:END:VCALENDAR\r\nEND:VEVENT\r\nEND:VCALENDAR".data) = 2 := by
  constructor
  · decide
  · decide

/-- C7 amended: at the level of the serializer's line sequence, every
successful output consists of the header, the event blocks in order,
and the footer; exactly one line equals the opening marker (the first)
and exactly one equals the closing marker (the last), and every event
block's lines lie strictly between them — as raw substrings of the
joined text the markers can occur more than once when an unescaped
title embeds one. -/
theorem marker_lines_unique (lo : Int) (now : String) (evs : List NotionRecord)
    (lines : List String) (h : generate_ics_lines lo now evs = .ok lines) :
    ∃ blocks, evs.mapM (transformEvent lo now) = .ok blocks ∧
      lines = headerLines ++ blocks.flatten ++ ["END:VCALENDAR"] ∧
      lines.count "BEGIN:VCALENDAR" = 1 ∧
      lines.count "END:VCALENDAR" = 1 ∧
      lines.head? = some "BEGIN:VCALENDAR" ∧
      lines.getLast? = some "END:VCALENDAR" := by
  obtain ⟨blocks, hm, hl⟩ := generate_lines_eq h
  have hflat : ∀ x ∈ blocks.flatten, x ≠ "BEGIN:VCALENDAR" ∧ x ≠ "END:VCALENDAR" := by
    intro x hx
    obtain ⟨b, hb, hxb⟩ := List.mem_flatten.mp hx
    obtain ⟨a, _, hfa⟩ := mapM_ok_mem hm b hb
    exact block_lines_ne_markers hfa x hxb
  have hcb : blocks.flatten.count "BEGIN:VCALENDAR" = 0 :=
    List.count_eq_zero.mpr (fun hx => (hflat _ hx).1 rfl)
  have hce : blocks.flatten.count "END:VCALENDAR" = 0 :=
    List.count_eq_zero.mpr (fun hx => (hflat _ hx).2 rfl)
  refine ⟨blocks, hm, hl, ?_, ?_, ?_, ?_⟩
  · rw [hl, List.count_append, List.count_append, hcb]
    decide
  · rw [hl, List.count_append, List.count_append, hce]
    decide
  · rw [hl]; rfl
  · have h2 : (headerLines ++ blocks.flatten) ++ ["END:VCALENDAR"] = lines := by
      rw [hl, List.append_assoc]
    rw [← h2, lastOfAppendSingleton]

/-- C7 amended witness: concrete one-event instantiation. -/
theorem marker_lines_unique_witness :
    ∃ blocks,
      List.mapM (transformEvent 0 "2025-01-01T00:00:00")
        [⟨some ["X"], some 1,
          some ⟨some "2025-11-01T22:00:00.000Z", some "2025-11-02T02:00:00.000Z"⟩⟩] =
        .ok blocks ∧
      ["BEGIN:VCALENDAR", "VERSION:2.0", "PRODID:-//DnB Events//Subscribed Calendar//EN",
        "BEGIN:VEVENT", "UID:1", "DTSTAMP:20250101T000000Z", "DTSTART:20251101T220000Z",
        "DTEND:20251102T020000Z", "SUMMARY:X", "END:VEVENT", "END:VCALENDAR"] =
        headerLines ++ blocks.flatten ++ ["END:VCALENDAR"] ∧
      List.count "BEGIN:VCALENDAR"
        ["BEGIN:VCALENDAR", "VERSION:2.0", "PRODID:-//DnB Events//Subscribed Calendar//EN",
          "BEGIN:VEVENT", "UID:1", "DTSTAMP:20250101T000000Z", "DTSTART:20251101T220000Z",
          "DTEND:20251102T020000Z", "SUMMARY:X", "END:VEVENT", "END:VCALENDAR"] = 1 ∧
      List.count "END:VCALENDAR"
        ["BEGIN:VCALENDAR", "VERSION:2.0", "PRODID:-//DnB Events//Subscribed Calendar//EN",
          "BEGIN:VEVENT", "UID:1", "DTSTAMP:20250101T000000Z", "DTSTART:20251101T220000Z",
          "DTEND:20251102T020000Z", "SUMMARY:X", "END:VEVENT", "END:VCALENDAR"] = 1 ∧
      List.head?
        ["BEGIN:VCALENDAR", "VERSION:2.0", "PRODID:-//DnB Events//Subscribed Calendar//EN",
          "BEGIN:VEVENT", "UID:1", "DTSTAMP:20250101T000000Z", "DTSTART:20251101T220000Z",
          "DTEND:20251102T020000Z", "SUMMARY:X", "END:VEVENT", "END:VCALENDAR"] =
        some "BEGIN:VCALENDAR" ∧
      List.getLast?
        ["BEGIN:VCALENDAR", "VERSION:2.0", "PRODID:-//DnB Events//Subscribed Calendar//EN",
          "BEGIN:VEVENT", "UID:1", "DTSTAMP:20250101T000000Z", "DTSTART:20251101T220000Z",
          "DTEND:20251102T020000Z", "SUMMARY:X", "END:VEVENT", "END:VCALENDAR"] =
        some "END:VCALENDAR" :=
  marker_lines_unique 0 "2025-01-01T00:00:00"
    [⟨some ["X"], some 1,
      some ⟨some "2025-11-01T22:00:00.000Z", some "2025-11-02T02:00:00.000Z"⟩⟩]
    ["BEGIN:VCALENDAR", "VERSION:2.0", "PRODID:-//DnB Events//Subscribed Calendar//EN",
      "BEGIN:VEVENT", "UID:1", "DTSTAMP:20250101T000000Z", "DTSTART:20251101T220000Z",
      "DTEND:20251102T020000Z", "SUMMARY:X", "END:VEVENT", "END:VCALENDAR"]
    (by decide)

/-! ### Claim theorems: missing required fields -/

/-- C8 counterexample: for a record whose identifier is available (42)
but whose title property is missing, the transform fails with a
`KeyError` that names the missing dict key and whose payload does not
mention the record identifier at all, so the error does not identify
the offending record identifier. -/
theorem missing_field_error_payload :
    generate_ics 0 "2025-01-01T00:00:00"
      [⟨none, some 42,
        some ⟨some "2025-11-01T22:00:00.000Z", some "2025-11-02T02:00:00.000Z"⟩⟩] =
      .error (.keyError "Event Name") ∧
    containsStr (errPayload (.keyError "Event Name")) "42" = false := by
  constructor
  · decide
  · decide

/-- C8 amended: a record missing a required field (title property,
identifier, date property, or start date) makes the transform fail with
a `KeyError` naming the missing key — not the record identifier — and
once every earlier record succeeded this failure aborts the whole
document generation, whatever records follow. -/
theorem missing_field_aborts_generation :
    (∀ (lo : Int) (now : String) (pre post : List NotionRecord) (bad : NotionRecord)
      (bs : List (List String)) (e : PyErr),
      pre.mapM (transformEvent lo now) = .ok bs →
      transformEvent lo now bad = .error e →
      generate_ics_lines lo now (pre ++ bad :: post) = .error e) ∧
    (∀ (lo : Int) (now : String) (u : Option Int) (d : Option NotionDate),
      transformEvent lo now ⟨none, u, d⟩ = .error (.keyError "Event Name")) ∧
    (∀ (lo : Int) (now t : String) (ts : List String) (d : Option NotionDate),
      transformEvent lo now ⟨some (t :: ts), none, d⟩ = .error (.keyError "ID")) ∧
    (∀ (lo : Int) (now t : String) (ts : List String) (n : Int),
      transformEvent lo now ⟨some (t :: ts), some n, none⟩ = .error (.keyError "Date")) ∧
    (∀ (lo : Int) (now t : String) (ts : List String) (n : Int) (ev : Option String),
      transformEvent lo now ⟨some (t :: ts), some n, some ⟨none, ev⟩⟩ =
        .error (.keyError "start")) := by
  refine ⟨?_, fun _ _ _ _ => rfl, fun _ _ _ _ _ => rfl, fun _ _ _ _ _ => rfl,
    fun _ _ _ _ _ _ => rfl⟩
  intro lo now pre post bad bs e h1 h2
  have hb : (bad :: post).mapM (transformEvent lo now) = .error e := by
    rw [List.mapM_cons, h2, exceptErrorBind]
  unfold generate_ics_lines
  rw [mapM_append_error h1 hb, exceptErrorBind]

/-- C8 amended witness: one good record followed by a record missing
its title property aborts the generation with the key-naming error,
even though another record follows. -/
theorem missing_field_aborts_generation_witness :
    List.mapM (transformEvent 0 "2025-01-01T00:00:00")
      [⟨some ["X"], some 1,
        some ⟨some "2025-11-01T22:00:00.000Z", some "2025-11-02T02:00:00.000Z"⟩⟩] =
      .ok [["BEGIN:VEVENT", "UID:1", "DTSTAMP:20250101T000000Z",
        "DTSTART:20251101T220000Z", "DTEND:20251102T020000Z", "SUMMARY:X",
        "END:VEVENT"]] ∧
    generate_ics_lines 0 "2025-01-01T00:00:00"
      ([⟨some ["X"], some 1,
        some ⟨some "2025-11-01T22:00:00.000Z", some "2025-11-02T02:00:00.000Z"⟩⟩] ++
        ⟨none, some 42, some ⟨some "2025-11-01T22:00:00.000Z", none⟩⟩ ::
        [⟨some ["Y"], some 3,
          some ⟨some "2025-11-01T22:00:00.000Z", some "2025-11-02T02:00:00.000Z"⟩⟩]) =
      .error (.keyError "Event Name") :=
  ⟨by decide,
    missing_field_aborts_generation.1 0 "2025-01-01T00:00:00"
      [⟨some ["X"], some 1,
        some ⟨some "2025-11-01T22:00:00.000Z", some "2025-11-02T02:00:00.000Z"⟩⟩]
      [⟨some ["Y"], some 3,
        some ⟨some "2025-11-01T22:00:00.000Z", some "2025-11-02T02:00:00.000Z"⟩⟩]
      ⟨none, some 42, some ⟨some "2025-11-01T22:00:00.000Z", none⟩⟩
      [["BEGIN:VEVENT", "UID:1", "DTSTAMP:20250101T000000Z",
        "DTSTART:20251101T220000Z", "DTEND:20251102T020000Z", "SUMMARY:X",
        "END:VEVENT"]]
      (.keyError "Event Name") (by decide) (by decide)⟩

/-! ### Claim theorems: event block line order -/

/-- C5: for every valid record whose timestamps format successfully,
the serializer emits the event block lines in exactly the order
begin-marker, identifier line, stamp line, start line, end line, title
line, end-marker; and the example record with id 42, title
`Jungle Night`, the given start and end, produces exactly the
documented lines inside the document. -/
theorem event_block_line_order :
    (∀ (lo : Int) (now t : String) (ts : List String) (n : Int) (s e S E N : String),
      format_dt lo s = .ok S → format_dt lo e = .ok E → format_dt lo now = .ok N →
      transformEvent lo now ⟨some (t :: ts), some n, some ⟨some s, some e⟩⟩ =
        .ok ["BEGIN:VEVENT", "UID:" ++ toString n, "DTSTAMP:" ++ N, "DTSTART:" ++ S,
          "DTEND:" ++ E, "SUMMARY:" ++ t, "END:VEVENT"]) ∧
    generate_ics_lines 0 "2025-11-01T12:00:00.123456"
      [⟨some ["Jungle Night"], some 42,
        some ⟨some "2025-11-01T22:00:00.000Z", some "2025-11-02T02:00:00.000Z"⟩⟩] =
      .ok ["BEGIN:VCALENDAR", "VERSION:2.0",
        "PRODID:-//DnB Events//Subscribed Calendar//EN", "BEGIN:VEVENT", "UID:42",
        "DTSTAMP:20251101T120000Z", "DTSTART:20251101T220000Z",
        "DTEND:20251102T020000Z", "SUMMARY:Jungle Night", "END:VEVENT",
        "END:VCALENDAR"] := by
  constructor
  · intro lo now t ts n s e S E N hS hE hN
    have hEne : E ≠ "" := format_dt_ok_ne_empty hE
    simp only [transformEvent, format_dt_opt, hS, hE, hN]
    rw [if_neg hEne]
    rfl
  · decide

/-- C5 witness: the universal part applied to the example record. -/
theorem event_block_line_order_witness :
    format_dt 0 "2025-11-01T22:00:00.000Z" = .ok "20251101T220000Z" ∧
    transformEvent 0 "2025-11-01T12:00:00.123456"
      ⟨some ["Jungle Night"], some 42,
        some ⟨some "2025-11-01T22:00:00.000Z", some "2025-11-02T02:00:00.000Z"⟩⟩ =
      .ok ["BEGIN:VEVENT", "UID:" ++ toString (42 : Int),
        "DTSTAMP:" ++ "20251101T120000Z", "DTSTART:" ++ "20251101T220000Z",
        "DTEND:" ++ "20251102T020000Z", "SUMMARY:" ++ "Jungle Night", "END:VEVENT"] :=
  ⟨by decide,
    event_block_line_order.1 0 "2025-11-01T12:00:00.123456" "Jungle Night" [] 42
      "2025-11-01T22:00:00.000Z" "2025-11-02T02:00:00.000Z"
      "20251101T220000Z" "20251102T020000Z" "20251101T120000Z"
      (by decide) (by decide) (by decide)⟩

/-! ### Timestamp formatter: digit and parser roundtrip lemmas -/

lemma dChar_isDigit {k : Nat} (h : k ≤ 9) : (dChar k).isDigit = true := by
  interval_cases k <;> decide

lemma digitVal_dChar {k : Nat} (h : k ≤ 9) : digitVal (dChar k) = k := by
  interval_cases k <;> decide

lemma dChar_ne_Z {k : Nat} (h : k ≤ 9) : dChar k ≠ 'Z' := by
  interval_cases k <;> decide

lemma replaceZ_append (a b : List Char) :
    replaceZ (a ++ b) = replaceZ a ++ replaceZ b := by
  induction a with
  | nil => rfl
  | cons c r ih =>
      by_cases hc : c = 'Z' <;> simp [replaceZ, hc, ih]

lemma replaceZ_noZ {l : List Char} (h : 'Z' ∉ l) : replaceZ l = l := by
  induction l with
  | nil => rfl
  | cons c r ih =>
      have hc : ¬ c = 'Z' := fun he => h (he ▸ List.mem_cons_self c r)
      have hr : 'Z' ∉ r := fun hm => h (List.mem_cons_of_mem c hm)
      simp [replaceZ, hc, ih hr]

lemma noZ_append {a b : List Char} (ha : 'Z' ∉ a) (hb : 'Z' ∉ b) : 'Z' ∉ a ++ b := by
  simp [List.mem_append]
  exact ⟨ha, hb⟩

lemma pad2_noZ {n : Nat} (h : n ≤ 99) : 'Z' ∉ pad2 n := by
  intro hm
  simp [pad2] at hm
  rcases hm with hm | hm
  · exact dChar_ne_Z (k := n / 10) (by omega) hm.symm
  · exact dChar_ne_Z (k := n % 10) (by omega) hm.symm

lemma pad4_noZ {n : Nat} (h : n ≤ 9999) : 'Z' ∉ pad4 n := by
  intro hm
  simp [pad4] at hm
  rcases hm with hm | hm | hm | hm
  · exact dChar_ne_Z (k := n / 1000) (by omega) hm.symm
  · exact dChar_ne_Z (k := n / 100 % 10) (by omega) hm.symm
  · exact dChar_ne_Z (k := n / 10 % 10) (by omega) hm.symm
  · exact dChar_ne_Z (k := n % 10) (by omega) hm.symm

lemma pad6_noZ {n : Nat} (h : n ≤ 999999) : 'Z' ∉ pad6 n := by
  intro hm
  simp [pad6] at hm
  rcases hm with hm | hm | hm | hm | hm | hm
  · exact dChar_ne_Z (k := n / 100000) (by omega) hm.symm
  · exact dChar_ne_Z (k := n / 10000 % 10) (by omega) hm.symm
  · exact dChar_ne_Z (k := n / 1000 % 10) (by omega) hm.symm
  · exact dChar_ne_Z (k := n / 100 % 10) (by omega) hm.symm
  · exact dChar_ne_Z (k := n / 10 % 10) (by omega) hm.symm
  · exact dChar_ne_Z (k := n % 10) (by omega) hm.symm

lemma parse2_pad2 {n : Nat} (h : n ≤ 99) (r : List Char) :
    parse2 (pad2 n ++ r) = some (n, r) := by
  have h1 : n / 10 ≤ 9 := by omega
  have h2 : n % 10 ≤ 9 := by omega
  simp [pad2, parse2, dChar_isDigit h1, dChar_isDigit h2,
    digitVal_dChar h1, digitVal_dChar h2]
  omega

lemma parse2_pad2_nil {n : Nat} (h : n ≤ 99) : parse2 (pad2 n) = some (n, []) := by
  have := parse2_pad2 h []
  rwa [List.append_nil] at this

lemma parse4_pad4 {n : Nat} (h : n ≤ 9999) (r : List Char) :
    parse4 (pad4 n ++ r) = some (n, r) := by
  have h1 : n / 1000 ≤ 9 := by omega
  have h2 : n / 100 % 10 ≤ 9 := by omega
  have h3 : n / 10 % 10 ≤ 9 := by omega
  have h4 : n % 10 ≤ 9 := by omega
  simp [pad4, parse4, dChar_isDigit h1, dChar_isDigit h2, dChar_isDigit h3,
    dChar_isDigit h4, digitVal_dChar h1, digitVal_dChar h2, digitVal_dChar h3,
    digitVal_dChar h4]
  omega

/-- Head-of-list digit test, used to delimit the fractional run. -/
def headIsDigit : List Char → Bool
  | [] => false
  | c :: _ => c.isDigit

lemma takeDigits_split {ds r : List Char} (hd : ∀ c ∈ ds, c.isDigit = true)
    (hr : headIsDigit r = false) : takeDigits (ds ++ r) = (ds, r) := by
  induction ds with
  | nil =>
      cases r with
      | nil => rfl
      | cons c t =>
          simp only [headIsDigit] at hr
          simp [takeDigits, hr]
  | cons c ds ih =>
      have hc : c.isDigit = true := hd c (List.mem_cons_self c ds)
      have hds : ∀ x ∈ ds, x.isDigit = true := fun x hx => hd x (List.mem_cons_of_mem c hx)
      simp [takeDigits, hc, ih hds]

lemma pad6_all_digits {u : Nat} (h : u ≤ 999999) : ∀ c ∈ pad6 u, c.isDigit = true := by
  intro c hc
  simp [pad6] at hc
  rcases hc with hc | hc | hc | hc | hc | hc <;> subst hc
  · exact dChar_isDigit (by omega)
  · exact dChar_isDigit (by omega)
  · exact dChar_isDigit (by omega)
  · exact dChar_isDigit (by omega)
  · exact dChar_isDigit (by omega)
  · exact dChar_isDigit (by omega)

lemma digitsToNat_cons (a : Nat) (c : Char) (r : List Char) :
    digitsToNat a (c :: r) = digitsToNat (a * 10 + digitVal c) r := rfl

lemma digitsToNat_nil (a : Nat) : digitsToNat a [] = a := rfl

lemma digitsToNat_pad6 {u : Nat} (h : u ≤ 999999) : digitsToNat 0 (pad6 u) = u := by
  have h1 : u / 100000 ≤ 9 := by omega
  have h2 : u / 10000 % 10 ≤ 9 := by omega
  have h3 : u / 1000 % 10 ≤ 9 := by omega
  have h4 : u / 100 % 10 ≤ 9 := by omega
  have h5 : u / 10 % 10 ≤ 9 := by omega
  have h6 : u % 10 ≤ 9 := by omega
  simp only [pad6, digitsToNat_cons, digitsToNat_nil, digitVal_dChar h1,
    digitVal_dChar h2, digitVal_dChar h3, digitVal_dChar h4, digitVal_dChar h5,
    digitVal_dChar h6]
  omega

lemma fracToUsec_pad6 {u : Nat} (h : u ≤ 999999) : fracToUsec (pad6 u) = u := by
  have hl : (pad6 u).length = 6 := by simp [pad6]
  simp [fracToUsec, hl, digitsToNat_pad6 h]

lemma parseOffMag_pad {m : Nat} (hm : m ≤ 1439) :
    parseOffMag (pad2 (m / 60) ++ [':'] ++ pad2 (m % 60)) = some (m : Int) := by
  have h1 : m / 60 ≤ 99 := by omega
  have h2 : m % 60 ≤ 99 := by omega
  have hstep : pad2 (m / 60) ++ [':'] ++ pad2 (m % 60) =
      pad2 (m / 60) ++ (':' :: pad2 (m % 60)) := by simp
  rw [hstep]
  simp [parseOffMag, parse2_pad2 h1, expectCh, parse2_pad2_nil h2]
  refine ⟨⟨by omega, by omega⟩, by omega⟩

lemma parseTail_offChars {o : Int} (h : o.natAbs ≤ 1439) :
    parseTail (offChars (some o)) = some (some o) := by
  by_cases hneg : o < 0
  · simp only [offChars, if_pos hneg, parseTail, parseOffMag_pad h]
    have h2 : -(o.natAbs : Int) = o := by omega
    show some (some (-(o.natAbs : Int))) = some (some o)
    rw [h2]
  · simp only [offChars, if_neg hneg, parseTail, parseOffMag_pad h]
    have h2 : ((o.natAbs : Int)) = o := by omega
    show some (some ((o.natAbs : Int))) = some (some o)
    rw [h2]

lemma replaceZ_offCharsRaw {o : Option Int} (h : ∀ x, o = some x → x.natAbs ≤ 1439) :
    replaceZ (offCharsRaw o) = offChars o := by
  cases o with
  | none => rfl
  | some x =>
      by_cases h0 : x = 0
      · subst h0; decide
      · have hx : x.natAbs ≤ 1439 := h x rfl
        have hnoZ : 'Z' ∉ offCharsRaw (some x) := by
          simp only [offCharsRaw, if_neg h0]
          intro hm
          rcases List.mem_cons.mp hm with hm | hm
          · revert hm; split <;> decide
          · rcases List.mem_append.mp hm with hm | hm
            · rcases List.mem_append.mp hm with hm | hm
              · exact pad2_noZ (by omega) hm
              · simp at hm
            · exact pad2_noZ (by omega) hm
        rw [replaceZ_noZ hnoZ]
        simp [offCharsRaw, offChars, h0]

lemma headIsDigit_offChars (o : Option Int) : headIsDigit (offChars o) = false := by
  cases o with
  | none => rfl
  | some x =>
      simp only [offChars]
      split <;> rfl

lemma fracChars_noZ {u : Nat} (h : u ≤ 999999) : 'Z' ∉ fracChars u := by
  unfold fracChars
  split
  · simp
  · intro hm
    rcases List.mem_cons.mp hm with hm | hm
    · exact absurd hm (by decide)
    · exact pad6_noZ h hm

lemma dtChars_noZ {y mo d h mi s : Nat} (hy : y ≤ 9999) (hmo : mo ≤ 99) (hd : d ≤ 99)
    (hh : h ≤ 99) (hmi : mi ≤ 99) (hs : s ≤ 99) : 'Z' ∉ dtChars y mo d h mi s := by
  unfold dtChars
  have hdash : 'Z' ∉ (['-'] : List Char) := by decide
  have hcolon : 'Z' ∉ ([':'] : List Char) := by decide
  have ht : 'Z' ∉ (['T'] : List Char) := by decide
  exact noZ_append (noZ_append (noZ_append (noZ_append (noZ_append (noZ_append
    (noZ_append (noZ_append (noZ_append (noZ_append (pad4_noZ hy) hdash)
    (pad2_noZ hmo)) hdash) (pad2_noZ hd)) ht) (pad2_noZ hh)) hcolon)
    (pad2_noZ hmi)) hcolon) (pad2_noZ hs)

lemma optBindSome {α β : Type} (a : α) (f : α → Option β) : (some a >>= f) = f a := rfl

lemma optBindSome2 {α β : Type} (a : α) (f : α → Option β) : Option.bind (some a) f = f a := rfl

lemma optMapSome {α β : Type} (f : α → β) (a : α) : Option.map f (some a) = some (f a) := rfl

lemma parseSecTail_cons (y mo d h mi s : Nat) (c2 : Char) (r4 : List Char) :
    parseSecTail y mo d h mi s (c2 :: r4) =
      if c2 = '.' then
        (let p := takeDigits r4
         if p.1 = [] then none
         else (do
           let off ← parseTail p.2
           some ⟨y, mo, d, h, mi, s, fracToUsec p.1, off⟩))
      else (do
        let off ← parseTail (c2 :: r4)
        some ⟨y, mo, d, h, mi, s, 0, off⟩) := rfl

lemma parseSecTail_nil (y mo d h mi s : Nat) :
    parseSecTail y mo d h mi s [] = some ⟨y, mo, d, h, mi, s, 0, none⟩ := rfl

lemma parseMinTail_cons (y mo d h mi : Nat) (c : Char) (r2 : List Char) :
    parseMinTail y mo d h mi (c :: r2) =
      if c = ':' then (do
        let (s, r3) ← parse2 r2
        parseSecTail y mo d h mi s r3)
      else (do
        let off ← parseTail (c :: r2)
        some ⟨y, mo, d, h, mi, 0, 0, off⟩) := rfl

lemma parseMinTail_nil (y mo d h mi : Nat) :
    parseMinTail y mo d h mi [] = some ⟨y, mo, d, h, mi, 0, 0, none⟩ := rfl

lemma parseTail_offChars_any (off : Option Int) (h : ∀ x, off = some x → x.natAbs ≤ 1439) :
    parseTail (offChars off) = some off := by
  cases off with
  | none => rfl
  | some o => exact parseTail_offChars (h o rfl)

lemma pad6_ne_nil (u : Nat) : pad6 u ≠ [] := by simp [pad6]

/-- Parsing the canonical rendering (after the `Z` substitution)
recovers exactly the rendered fields. -/
lemma fromisoformat_render (y mo d h mi s u : Nat) (off : Option Int)
    (hy1 : 1 ≤ y) (hy : y ≤ 9999) (hmo1 : 1 ≤ mo) (hmo : mo ≤ 12)
    (hd1 : 1 ≤ d) (hdm : d ≤ daysInMonth y mo) (hh : h ≤ 23) (hmi : mi ≤ 59)
    (hs : s ≤ 59) (hu : u ≤ 999999)
    (hoff : ∀ x, off = some x → x.natAbs ≤ 1439) :
    fromisoformat (replaceZ (isoOfFields y mo d h mi s u off).data) =
      some ⟨y, mo, d, h, mi, s, u, off⟩ := by
  have hdim : daysInMonth y mo ≤ 31 := by
    unfold daysInMonth
    split
    · split <;> omega
    · split <;> omega
  have hdata : (isoOfFields y mo d h mi s u off).data =
      dtChars y mo d h mi s ++ fracChars u ++ offCharsRaw off := rfl
  have hnoZdt : 'Z' ∉ dtChars y mo d h mi s :=
    dtChars_noZ (by omega) (by omega) (by omega) (by omega) (by omega) (by omega)
  have hrz : replaceZ (dtChars y mo d h mi s ++ fracChars u ++ offCharsRaw off) =
      dtChars y mo d h mi s ++ fracChars u ++ offChars off := by
    rw [replaceZ_append, replaceZ_append, replaceZ_noZ hnoZdt,
      replaceZ_noZ (fracChars_noZ hu), replaceZ_offCharsRaw hoff]
  rw [hdata, hrz]
  have hval : validDT ⟨y, mo, d, h, mi, s, u, off⟩ = true := by
    simp only [validDT, Bool.and_eq_true, decide_eq_true_eq]
    refine ⟨⟨⟨⟨⟨⟨⟨⟨⟨?_, ?_⟩, ?_⟩, ?_⟩, ?_⟩, ?_⟩, ?_⟩, ?_⟩, ?_⟩, ?_⟩ <;>
      first
        | exact hdm
        | omega
  have hshape : dtChars y mo d h mi s ++ fracChars u ++ offChars off =
      pad4 y ++ ('-' :: (pad2 mo ++ ('-' :: (pad2 d ++ ('T' :: (pad2 h ++ (':' ::
        (pad2 mi ++ (':' :: (pad2 s ++ (fracChars u ++ offChars off))))))))))) := by
    simp [dtChars, List.append_assoc]
  rw [hshape]
  have hmo99 : mo ≤ 99 := by omega
  have hd99 : d ≤ 99 := by omega
  have hh99 : h ≤ 99 := by omega
  have hmi99 : mi ≤ 99 := by omega
  have hs99 : s ≤ 99 := by omega
  by_cases hu0 : u = 0
  · subst hu0
    cases off with
    | none =>
        simp only [fracChars, offChars, if_pos rfl, List.append_nil, List.nil_append]
        simp only [fromisoformat, parseTime, parseMinTail_cons, parseMinTail_nil,
            parseSecTail_cons, parseSecTail_nil, optBindSome,
            optBindSome2, parse4_pad4 hy,
          parse2_pad2 hmo99, parse2_pad2 hd99, parse2_pad2 hh99, parse2_pad2 hmi99,
          parse2_pad2_nil hs99, List.append_nil, List.nil_append, expectCh,
          eq_self_iff_true, if_true, parseTail, hval]
    | some o =>
        have ho1439 : o.natAbs ≤ 1439 := hoff o rfl
        by_cases hneg : o < 0
        · have ho : -(o.natAbs : Int) = o := by omega
          have hoc : offChars (some o) =
              '-' :: (pad2 (o.natAbs / 60) ++ [':'] ++ pad2 (o.natAbs % 60)) := by
            simp [offChars, hneg]
          have hne1 : (('-' : Char) = '.') = False := by decide
          simp only [fracChars, if_pos rfl, List.nil_append, hoc]
          simp only [fromisoformat, parseTime, parseMinTail_cons, parseMinTail_nil,
            parseSecTail_cons, parseSecTail_nil, optBindSome,
            optBindSome2, parse4_pad4 hy,
            parse2_pad2 hmo99, parse2_pad2 hd99, parse2_pad2 hh99, parse2_pad2 hmi99,
            parse2_pad2 hs99, List.append_nil, List.nil_append, expectCh,
            eq_self_iff_true, if_true, hne1, if_false, parseTail,
            parseOffMag_pad ho1439, Option.map_some, optMapSome, ho, hval]
        · have ho : ((o.natAbs : Int)) = o := by omega
          have hoc : offChars (some o) =
              '+' :: (pad2 (o.natAbs / 60) ++ [':'] ++ pad2 (o.natAbs % 60)) := by
            simp [offChars, hneg]
          have hne1 : (('+' : Char) = '.') = False := by decide
          simp only [fracChars, if_pos rfl, List.nil_append, hoc]
          simp only [fromisoformat, parseTime, parseMinTail_cons, parseMinTail_nil,
            parseSecTail_cons, parseSecTail_nil, optBindSome,
            optBindSome2, parse4_pad4 hy,
            parse2_pad2 hmo99, parse2_pad2 hd99, parse2_pad2 hh99, parse2_pad2 hmi99,
            parse2_pad2 hs99, List.append_nil, List.nil_append, expectCh,
            eq_self_iff_true, if_true, hne1, if_false, parseTail,
            parseOffMag_pad ho1439, Option.map_some, optMapSome, ho, hval]
  · have hfrac : fracChars u = '.' :: pad6 u := by simp [fracChars, hu0]
    have hp6 : (pad6 u = []) = False := by simp [pad6]
    simp only [hfrac]
    simp only [fromisoformat, parseTime, parseMinTail_cons, parseMinTail_nil,
            parseSecTail_cons, parseSecTail_nil, optBindSome,
            optBindSome2, parse4_pad4 hy,
      parse2_pad2 hmo99, parse2_pad2 hd99, parse2_pad2 hh99, parse2_pad2 hmi99,
      parse2_pad2 hs99, List.append_nil, List.nil_append, List.cons_append, expectCh,
      eq_self_iff_true, if_true, hp6, if_false,
      takeDigits_split (pad6_all_digits hu) (headIsDigit_offChars off),
      fracToUsec_pad6 hu, parseTail_offChars_any off hoff, hval]

lemma strDataMk (l : List Char) : (String.mk l).data = l := rfl

/-- Range of the civil-date components produced by `civilFromDaysNat`
on day numbers between 0001-01-01 and 9999-12-31. -/
lemma civilFromDaysNat_range (z : Nat) (h1 : 306 ≤ z) (h2 : z ≤ 3652364) :
    1 ≤ (civilFromDaysNat z).1 ∧ (civilFromDaysNat z).1 ≤ 9999 ∧
    1 ≤ (civilFromDaysNat z).2.1 ∧ (civilFromDaysNat z).2.1 ≤ 12 ∧
    1 ≤ (civilFromDaysNat z).2.2 ∧ (civilFromDaysNat z).2.2 ≤ 31 := by
  simp only [civilFromDaysNat]
  repeat' split
  all_goals omega

/-- The formatter output always matches the `YYYYMMDDTHHMMSSZ`
pattern once every field is at most two (four for the year) digits
wide. -/
lemma icsShape_strftime (dt : PyDateTime) (hy : dt.year ≤ 9999) (hmo : dt.month ≤ 99)
    (hd : dt.day ≤ 99) (hh : dt.hour ≤ 99) (hmi : dt.minute ≤ 99) (hs : dt.second ≤ 99) :
    icsShape (strftimeBasic dt) = true := by
  obtain ⟨y, mo, d, h, mi, s, u, off⟩ := dt
  simp only at hy hmo hd hh hmi hs
  have q1 : (dChar (y / 1000)).isDigit = true := dChar_isDigit (by omega)
  have q2 : (dChar (y / 100 % 10)).isDigit = true := dChar_isDigit (by omega)
  have q3 : (dChar (y / 10 % 10)).isDigit = true := dChar_isDigit (by omega)
  have q4 : (dChar (y % 10)).isDigit = true := dChar_isDigit (by omega)
  have q5 : (dChar (mo / 10)).isDigit = true := dChar_isDigit (by omega)
  have q6 : (dChar (mo % 10)).isDigit = true := dChar_isDigit (by omega)
  have q7 : (dChar (d / 10)).isDigit = true := dChar_isDigit (by omega)
  have q8 : (dChar (d % 10)).isDigit = true := dChar_isDigit (by omega)
  have q9 : (dChar (h / 10)).isDigit = true := dChar_isDigit (by omega)
  have q10 : (dChar (h % 10)).isDigit = true := dChar_isDigit (by omega)
  have q11 : (dChar (mi / 10)).isDigit = true := dChar_isDigit (by omega)
  have q12 : (dChar (mi % 10)).isDigit = true := dChar_isDigit (by omega)
  have q13 : (dChar (s / 10)).isDigit = true := dChar_isDigit (by omega)
  have q14 : (dChar (s % 10)).isDigit = true := dChar_isDigit (by omega)
  simp [icsShape, strftimeBasic, strDataMk, pad4, pad2, q1, q2, q3, q4, q5, q6,
    q7, q8, q9, q10, q11, q12, q13, q14]

/-- C4: the timestamp formatter, applied to the canonical ISO-8601
rendering of any in-range datetime — naive, `Z`-suffixed, or with an
explicit offset, with or without fractional seconds — succeeds and
produces a string of the basic ICS UTC shape `YYYYMMDDTHHMMSSZ`
(second precision, no fractional seconds); concretely, the `Z`-suffixed
millisecond example maps to `20251101T220000Z`, and offset inputs are
converted to UTC, including across a day boundary. -/
theorem format_dt_iso_shape :
    (∀ (lo : Int) (y mo d h mi s u : Nat) (off : Option Int),
      1 ≤ y → y ≤ 9999 → 1 ≤ mo → mo ≤ 12 → 1 ≤ d → d ≤ daysInMonth y mo →
      h ≤ 23 → mi ≤ 59 → s ≤ 59 → u ≤ 999999 →
      (∀ x, off = some x → x.natAbs ≤ 1439) →
      (minDayNum : Int) * 1440 ≤
        (daysFromCivilNat y mo d : Int) * 1440 + h * 60 + mi - off.getD lo →
      (daysFromCivilNat y mo d : Int) * 1440 + h * 60 + mi - off.getD lo ≤
        (maxDayNum : Int) * 1440 + 1439 →
      ∃ out, format_dt lo (isoOfFields y mo d h mi s u off) = .ok out ∧
        icsShape out = true) ∧
    format_dt 0 "2025-11-01T22:00:00.000Z" = .ok "20251101T220000Z" ∧
    format_dt 0 "2025-11-01T23:30:00+02:30" = .ok "20251101T210000Z" ∧
    format_dt 0 "2025-11-01T01:00:00+03:00" = .ok "20251031T220000Z" := by
  refine ⟨?_, by decide, by decide, by decide⟩
  intro lo y mo d h mi s u off hy1 hy hmo1 hmo hd1 hdm hh hmi hs hu hoffm htm1 htm2
  have hparse := fromisoformat_render y mo d h mi s u off hy1 hy hmo1 hmo hd1 hdm
    hh hmi hs hu hoffm
  unfold format_dt
  rw [hparse]
  unfold toUTC
  simp only [minDayNum, maxDayNum] at htm1 htm2 ⊢
  rw [if_neg (by push_neg; exact ⟨htm1, htm2⟩)]
  refine ⟨_, rfl, ?_⟩
  have hz1 : 306 ≤ ((daysFromCivilNat y mo d : Int) * 1440 + h * 60 + mi -
      off.getD lo).toNat / 1440 := by omega
  have hz2 : ((daysFromCivilNat y mo d : Int) * 1440 + h * 60 + mi -
      off.getD lo).toNat / 1440 ≤ 3652364 := by omega
  obtain ⟨c1, c2, c3, c4, c5, c6⟩ := civilFromDaysNat_range _ hz1 hz2
  refine icsShape_strftime _ ?_ ?_ ?_ ?_ ?_ ?_ <;> dsimp only <;> omega

/-- C4 witness: the universal part applied to the example instant
2025-11-01 22:00:00 UTC rendered with a `Z` suffix. -/
theorem format_dt_iso_shape_witness :
    ∃ out, format_dt 0 (isoOfFields 2025 11 1 22 0 0 0 (some 0)) = .ok out ∧
      icsShape out = true :=
  format_dt_iso_shape.1 0 2025 11 1 22 0 0 0 (some 0) (by decide) (by decide)
    (by decide) (by decide) (by decide) (by decide) (by decide) (by decide)
    (by decide) (by decide) (by intro x hx; cases hx; decide) (by decide) (by decide)

end DnbCal
